import Mathlib

/-! SubProcessor decoding and fetching (`redfish/subprocessor.go`)

A shallow embedding of `SubProcessor.UnmarshalJSON` and `GetSubProcessor`.

* Go's `error` results are `Option GoError` (`none` is `nil`).
* A method with a pointer receiver takes the receiver's value and returns the
  new one.
* The functions of the Go standard library the code calls (`json.Unmarshal`,
  `strconv.ParseFloat`, `json.Decoder.Decode`) are the fields of `Std`; the
  two functions of the source are written once, over any `Std`. `goStd` is a
  model of the standard library's documented behaviour; it serves to run the
  code on concrete bodies and to prove what depends on package json itself
  (which field a key names, what a missing member leaves behind).
-/

namespace Gofish

/-! ## Floating-point values -/

/-- A Go floating-point value: a finite dyadic number `(-1)^neg * mant * 2^exp`
(with `mant` odd, or `mant = 0` and `exp = 0`), an infinity, or NaN. Every
`float32` and every `float64` is such a value. -/
inductive GoFloat where
  | fin (neg : Bool) (mant : Nat) (exp : Int)
  | inf (neg : Bool)
  | nan
deriving DecidableEq, Repr, Inhabited

/-- The zero value of a Go float. -/
def GoFloat.zero : GoFloat := .fin false 0 0

/-- The position of the highest set bit of `n` (`0` for `n < 2`); the first
argument bounds the number of halvings and is given as `n` itself. -/
def log2Aux : Nat → Nat → Nat
  | 0, _ => 0
  | fuel + 1, n => if n < 2 then 0 else log2Aux fuel (n / 2) + 1

/-- The integer part of the binary logarithm of `n`. -/
def log2 (n : Nat) : Nat := log2Aux n n

/-- Divides `q` by two while it is even, counting the halvings into `e`:
`q * 2^e` is unchanged. The first argument bounds the number of halvings. -/
def stripTwos : Nat → Nat → Int → Nat × Int
  | 0, q, e => (q, e)
  | fuel + 1, q, e => if q % 2 = 0 ∧ q ≠ 0 then stripTwos fuel (q / 2) (e + 1) else (q, e)

/-- The finite float `(-1)^neg * q * 2^e` in normal form (odd mantissa). -/
def GoFloat.mk (neg : Bool) (q : Nat) (e : Int) : GoFloat :=
  if q = 0 then .fin neg 0 0
  else .fin neg (stripTwos q q e).1 (stripTwos q q e).2

/-- The integer `n` as a float (exact). -/
def GoFloat.ofNat (n : Nat) : GoFloat := .mk false n 0

/-- The integer part of the binary logarithm of `n / d`, for positive `n`, `d`. -/
def floorLog2Ratio (n d : Nat) : Int :=
  let e0 : Int := (log2 n : Int) - (log2 d : Int)
  if 0 ≤ e0 then (if d <<< e0.toNat ≤ n then e0 else e0 - 1)
  else (if d ≤ n <<< (-e0).toNat then e0 else e0 - 1)

/-- IEEE 754 round-to-nearest-even of the rational `(-1)^neg * n / d` to a
binary format with `mantbits` significant bits and normal exponents
`emin .. emax`. The second component reports overflow (the result is then an
infinity). Underflow gives a subnormal or zero and is no overflow. -/
def roundToFormat (mantbits : Nat) (emin emax : Int) (neg : Bool) (n d : Nat) :
    GoFloat × Bool :=
  if n = 0 then (.fin neg 0 0, false)
  else
    let e := if floorLog2Ratio n d < emin then emin else floorLog2Ratio n d
    let u := e - ((mantbits : Int) - 1)
    let N := if 0 ≤ u then n else n <<< (-u).toNat
    let D := if 0 ≤ u then d <<< u.toNat else d
    let q0 := N / D
    let r := N % D
    let q := if D < 2 * r ∨ (2 * r = D ∧ q0 % 2 = 1) then q0 + 1 else q0
    if emax < e ∨ (e = emax ∧ 2 ^ mantbits ≤ q) then (.inf neg, true)
    else (.mk neg q u, false)

/-- Rounding to `float32` (24 significant bits) or, for any other `bitSize`,
to `float64` (53 significant bits). -/
def roundToBitSize (bitSize : Nat) (neg : Bool) (n d : Nat) : GoFloat × Bool :=
  if bitSize = 32 then roundToFormat 24 (-126) 127 neg n d
  else roundToFormat 53 (-1022) 1023 neg n d

/-- The Go conversion `float32(x)` of a `float64` value `x`. -/
def float32 : GoFloat → GoFloat
  | .fin neg m e =>
    if 0 ≤ e then (roundToFormat 24 (-126) 127 neg (m <<< e.toNat) 1).1
    else (roundToFormat 24 (-126) 127 neg m (1 <<< (-e).toNat)).1
  | .inf neg => .inf neg
  | .nan => .nan

/-! ## Errors -/

/-- The two causes carried by a `*strconv.NumError`. -/
inductive NumErr where
  | errSyntax
  | errRange
deriving DecidableEq, Repr

/-- The Go error values that occur here. `syntaxError` is a
`*json.SyntaxError` (its message and offset are not kept),
`unmarshalTypeError` keeps the `Value`, `Struct` and `Field` of a
`*json.UnmarshalTypeError`, `numError` is a `*strconv.NumError`, `eof` is
`io.EOF`, and `transport` stands for any error of the client. -/
inductive GoError where
  | syntaxError
  | unmarshalTypeError (value : String) (struct : String) (field : String)
  | numError (func : String) (num : String) (err : NumErr)
  | eof
  | transport (code : Nat)
deriving DecidableEq, Repr

/-! ## `strconv.ParseFloat` and `strconv.ParseInt` -/

/-- Whether `c` is an ASCII decimal digit. -/
def isDigit (c : Char) : Bool := 48 ≤ c.toNat && c.toNat ≤ 57

/-- The byte trick `c | ('x' - 'X')` of package strconv. -/
def lower (c : Char) : Nat := c.toNat ||| 32

/-- Whether `c` is one of `a-f`, `A-F`. -/
def isHexLetter (c : Char) : Bool := 97 ≤ lower c && lower c ≤ 102

/-- The value of a decimal digit. -/
def digitVal (c : Char) : Nat := c.toNat - 48

/-- The value of a hexadecimal letter. -/
def hexLetterVal (c : Char) : Nat := lower c - 97 + 10

/-- The length of the longest common start of `s` and the lower-case word
`w`, upper-case ASCII letters of `s` counting as their lower-case ones. -/
def commonPrefixLenIgnoreCase : List Char → List Char → Nat
  | c :: s, p :: w =>
    let c1 := if 65 ≤ c.toNat ∧ c.toNat ≤ 90 then c.toNat + 32 else c.toNat
    if c1 = p.toNat then commonPrefixLenIgnoreCase s w + 1 else 0
  | _, _ => 0

/-- The function `special` of strconv: an infinity or NaN at the start of `s`,
with what follows it. -/
def special (s : List Char) : Option (GoFloat × List Char) :=
  let inf (neg : Bool) (t : List Char) : Option (GoFloat × List Char) :=
    let n := commonPrefixLenIgnoreCase t "infinity".toList
    let n := if 3 < n ∧ n < 8 then 3 else n
    if n = 3 ∨ n = 8 then some (.inf neg, t.drop n) else none
  match s with
  | [] => none
  | c :: t =>
    if c = '+' then inf false t
    else if c = '-' then inf true t
    else if c = 'i' ∨ c = 'I' then inf false s
    else if c = 'n' ∨ c = 'N' then
      if commonPrefixLenIgnoreCase s "nan".toList = 3 then some (.nan, s.drop 3) else none
    else none

/-- The function `underscoreOK` of strconv, after the optional sign and base
prefix: `saw` is the class of the last character (`0` start, `1` digit or
base prefix, `2` underscore, `3` other). -/
def underscoreLoop (hex : Bool) : List Char → Nat → Bool
  | [], saw => saw != 2
  | c :: cs, saw =>
    if isDigit c || (hex && isHexLetter c) then underscoreLoop hex cs 1
    else if c = '_' then (if saw != 1 then false else underscoreLoop hex cs 2)
    else if saw = 2 then false
    else underscoreLoop hex cs 3

/-- The function `underscoreOK` of strconv: underscores only between digits,
or between a base prefix and a digit. -/
def underscoreOK (s : List Char) : Bool :=
  let s := match s with
    | c :: t => if c = '-' ∨ c = '+' then t else s
    | [] => s
  match s with
  | c0 :: c1 :: t =>
    if c0 = '0' ∧ (lower c1 = 98 ∨ lower c1 = 111 ∨ lower c1 = 120) then
      underscoreLoop (lower c1 == 120) t 1
    else underscoreLoop false s 0
  | _ => underscoreLoop false s 0

/-- The mantissa read so far: its digits as a number in the base, how many of
them follow the point, and what has been seen. -/
structure Mantissa where
  mant : Nat
  frac : Nat
  sawdot : Bool
  sawdigits : Bool
  underscores : Bool
deriving DecidableEq, Repr

/-- One more digit `v` in base `base`. -/
def Mantissa.push (m : Mantissa) (base v : Nat) : Mantissa :=
  { m with mant := m.mant * base + v, frac := if m.sawdot then m.frac + 1 else m.frac,
           sawdigits := true }

/-- The digit loop of `readFloat`: digits, underscores and at most one point. -/
def readMantissa (hex : Bool) : List Char → Mantissa → Mantissa × List Char
  | [], m => (m, [])
  | c :: cs, m =>
    if c = '_' then readMantissa hex cs { m with underscores := true }
    else if c = '.' then
      if m.sawdot then (m, c :: cs) else readMantissa hex cs { m with sawdot := true }
    else if isDigit c then readMantissa hex cs (m.push (if hex then 16 else 10) (digitVal c))
    else if hex && isHexLetter c then readMantissa hex cs (m.push 16 (hexLetterVal c))
    else (m, c :: cs)

/-- The exponent's digit loop of `readFloat`; the exponent stops growing at
`10000`. The boolean reports an underscore. -/
def readExpDigits : List Char → Nat → Bool → Nat × Bool × List Char
  | [], e, us => (e, us, [])
  | c :: cs, e, us =>
    if c = '_' then readExpDigits cs e true
    else if isDigit c then readExpDigits cs (if e < 10000 then e * 10 + digitVal c else e) us
    else (e, us, c :: cs)

/-- What `readFloat` reads: the number is
`(-1)^neg * mant * base^(-frac) * b^exp` with `base = 16`, `b = 2` when `hex`
and `base = b = 10` otherwise; `rest` is the unread text. -/
structure FloatText where
  neg : Bool
  hex : Bool
  mant : Nat
  frac : Nat
  exp : Int
  rest : List Char
deriving DecidableEq, Repr

/-- The function `readFloat` of strconv; `none` is its `ok = false`. -/
def readFloat (s : List Char) : Option FloatText :=
  let neg : Bool := match s with
    | c :: _ => c == '-'
    | [] => false
  let s1 := match s with
    | c :: t => if c = '+' ∨ c = '-' then t else s
    | [] => s
  let hex : Bool := match s1 with
    | c0 :: c1 :: _ :: _ => c0 == '0' && lower c1 == 120
    | _ => false
  let s2 := if hex then s1.drop 2 else s1
  let (m, s3) := readMantissa hex s2 ⟨0, 0, false, false, false⟩
  if !m.sawdigits then none
  else
    let expChar : Nat := if hex then 112 else 101
    let finish (exp : Int) (us : Bool) (rest : List Char) : Option FloatText :=
      if us && !underscoreOK (s.take (s.length - rest.length)) then none
      else some ⟨neg, hex, m.mant, m.frac, exp, rest⟩
    match s3 with
    | c :: s4 =>
      if lower c = expChar then
        match s4 with
        | [] => none
        | d :: s5 =>
          let esign : Int := if d = '-' then -1 else 1
          let s6 := if d = '+' ∨ d = '-' then s5 else s4
          match s6 with
          | [] => none
          | d1 :: _ =>
            if !isDigit d1 then none
            else
              let (e, us, rest) := readExpDigits s6 0 m.underscores
              finish (e * esign) us rest
      else if hex then none
      else finish 0 m.underscores s3
    | [] => if hex then none else finish 0 m.underscores s3

/-- The rational `n / d` that a `FloatText` denotes. -/
def FloatText.ratio (r : FloatText) : Nat × Nat :=
  if r.hex then
    let k : Int := r.exp - 4 * (r.frac : Int)
    if 0 ≤ k then (r.mant <<< k.toNat, 1) else (r.mant, 1 <<< (-k).toNat)
  else
    let k : Int := r.exp - (r.frac : Int)
    if 0 ≤ k then (r.mant * 10 ^ k.toNat, 1) else (r.mant, 10 ^ (-k).toNat)

/-- The function `strconv.ParseFloat(s, bitSize)`: the nearest float of the
given size and `nil`; `0` and a syntax error when `s` is not a number; an
infinity and a range error when it is too large. -/
def parseFloat (s : String) (bitSize : Nat) : GoFloat × Option GoError :=
  match special s.toList with
  | some (f, rest) =>
    if rest = [] then (f, none)
    else (.zero, some (.numError "ParseFloat" s .errSyntax))
  | none =>
    match readFloat s.toList with
    | none => (.zero, some (.numError "ParseFloat" s .errSyntax))
    | some r =>
      if r.rest ≠ [] then (.zero, some (.numError "ParseFloat" s .errSyntax))
      else
        let (f, ovf) := roundToBitSize bitSize r.neg r.ratio.1 r.ratio.2
        (f, if ovf then some (.numError "ParseFloat" s .errRange) else none)

/-- The digits of a base-10 integer, most significant first; `none` when a
character is no digit. -/
def readDigits : List Char → Nat → Option Nat
  | [], n => some n
  | c :: cs, n => if isDigit c then readDigits cs (n * 10 + digitVal c) else none

/-- The function `strconv.ParseInt(s, 10, 64)`; `none` is any error (no digit,
a character that is no digit, or a value outside the 64-bit range). -/
def parseInt64 (s : List Char) : Option Int :=
  let neg : Bool := match s with
    | c :: _ => c == '-'
    | [] => false
  let s1 := match s with
    | c :: t => if c = '+' ∨ c = '-' then t else s
    | [] => s
  if s1.isEmpty then none
  else
    match readDigits s1 0 with
    | none => none
    | some n =>
      if neg then (if n ≤ 2 ^ 63 then some (-(n : Int)) else none)
      else (if n < 2 ^ 63 then some (n : Int) else none)

/-! ## JSON texts -/

/-- A JSON value. A number keeps its literal, as package json converts it
only once the destination type is known; an object keeps its members in the
order of the text, repeated names included. -/
inductive Json where
  | null
  | bool (b : Bool)
  | num (lit : String)
  | str (s : String)
  | arr (items : List Json)
  | obj (members : List (String × Json))
deriving Repr, Inhabited

/-- The word package json uses for a value in an `UnmarshalTypeError`. -/
def Json.kind : Json → String
  | .null => "null"
  | .bool _ => "bool"
  | .num _ => "number"
  | .str _ => "string"
  | .arr _ => "array"
  | .obj _ => "object"

/-- Drops JSON white space (space, tab, line feed, carriage return). -/
def skipSpace : List Char → List Char
  | [] => []
  | c :: cs => if c = ' ' ∨ c = '\t' ∨ c = '\n' ∨ c = '\r' then skipSpace cs else c :: cs

/-- The value of a hexadecimal digit, if `c` is one. -/
def hexVal (c : Char) : Option Nat :=
  if isDigit c then some (digitVal c)
  else if isHexLetter c then some (hexLetterVal c)
  else none

/-- The number written by four hexadecimal digits. -/
def hex4 (a b c d : Char) : Option Nat :=
  match hexVal a, hexVal b, hexVal c, hexVal d with
  | some x, some y, some z, some w => some (((x * 16 + y) * 16 + z) * 16 + w)
  | _, _, _, _ => none

/-- The body of a JSON string after its opening quote: the string it writes
and the text after the closing quote. `acc` holds the characters read so far,
last first. A lone surrogate escape reads as U+FFFD. The first argument bounds
the number of steps; the length of the text plus one is enough. -/
def readStringAux : Nat → List Char → List Char → Option (String × List Char)
  | 0, _, _ => none
  | _ + 1, [], _ => none
  | fuel + 1, c :: cs, acc =>
    if c = '"' then some (String.mk acc.reverse, cs)
    else if c.toNat < 32 then none
    else if c = '\\' then
      match cs with
      | 'u' :: h1 :: h2 :: h3 :: h4 :: rest =>
        match hex4 h1 h2 h3 h4 with
        | none => none
        | some u =>
          if 0xD800 ≤ u ∧ u < 0xDC00 then
            match rest with
            | '\\' :: 'u' :: l1 :: l2 :: l3 :: l4 :: rest2 =>
              match hex4 l1 l2 l3 l4 with
              | some l =>
                if 0xDC00 ≤ l ∧ l < 0xE000 then
                  readStringAux fuel rest2
                    (Char.ofNat (0x10000 + (u - 0xD800) * 1024 + (l - 0xDC00)) :: acc)
                else readStringAux fuel rest (Char.ofNat 0xFFFD :: acc)
              | none => readStringAux fuel rest (Char.ofNat 0xFFFD :: acc)
            | _ => readStringAux fuel rest (Char.ofNat 0xFFFD :: acc)
          else if 0xDC00 ≤ u ∧ u < 0xE000 then readStringAux fuel rest (Char.ofNat 0xFFFD :: acc)
          else readStringAux fuel rest (Char.ofNat u :: acc)
      | e :: rest =>
        if e = '"' ∨ e = '\\' ∨ e = '/' then readStringAux fuel rest (e :: acc)
        else if e = 'b' then readStringAux fuel rest (Char.ofNat 8 :: acc)
        else if e = 'f' then readStringAux fuel rest (Char.ofNat 12 :: acc)
        else if e = 'n' then readStringAux fuel rest ('\n' :: acc)
        else if e = 'r' then readStringAux fuel rest ('\r' :: acc)
        else if e = 't' then readStringAux fuel rest ('\t' :: acc)
        else none
      | [] => none
    else readStringAux fuel cs (c :: acc)

/-- The body of a JSON string after its opening quote. -/
def readString (cs : List Char) : Option (String × List Char) :=
  readStringAux (cs.length + 1) cs []

/-- Splits off the leading decimal digits. -/
def spanDigits : List Char → List Char × List Char
  | [] => ([], [])
  | c :: cs => if isDigit c then ((spanDigits cs).1.cons c, (spanDigits cs).2) else ([], c :: cs)

/-- A JSON number at the start of the text: its literal and the text after it. -/
def readNumber (cs : List Char) : Option (List Char × List Char) :=
  let sign : List Char := match cs with
    | '-' :: _ => ['-']
    | _ => []
  let s1 := cs.drop sign.length
  let (intPart, s2) := spanDigits s1
  if intPart.isEmpty then none
  else if intPart.head? = some '0' ∧ 1 < intPart.length then
    -- a leading zero ends the integer part: the literal is "0"
    some (sign ++ ['0'], s1.drop 1)
  else
    let fracOf (t : List Char) : Option (List Char × List Char) :=
      match t with
      | '.' :: t1 =>
        let (ds, t2) := spanDigits t1
        if ds.isEmpty then none else some ('.' :: ds, t2)
      | _ => some ([], t)
    let expOf (t : List Char) : Option (List Char × List Char) :=
      match t with
      | e :: t1 =>
        if e = 'e' ∨ e = 'E' then
          let sg : List Char := match t1 with
            | '+' :: _ => ['+']
            | '-' :: _ => ['-']
            | _ => []
          let (ds, t2) := spanDigits (t1.drop sg.length)
          if ds.isEmpty then none else some (e :: sg ++ ds, t2)
        else some ([], t)
      | [] => some ([], t)
    match fracOf s2 with
    | none => none
    | some (fr, s3) =>
      match expOf s3 with
      | none => none
      | some (ex, s4) => some (sign ++ intPart ++ fr ++ ex, s4)

mutual
/-- One JSON value at the start of the text (after white space), and the
text after it. The first argument bounds the recursion; the length of the
text plus one is enough. -/
def parseValue : Nat → List Char → Option (Json × List Char)
  | 0, _ => none
  | fuel + 1, cs =>
    match skipSpace cs with
    | [] => none
    | c :: rest =>
      if c = '\x7b' then
        match skipSpace rest with
        | '\x7d' :: rest1 => some (.obj [], rest1)
        | _ => parseMembers fuel rest []
      else if c = '[' then
        match skipSpace rest with
        | ']' :: rest1 => some (.arr [], rest1)
        | _ => parseItems fuel rest []
      else if c = '"' then
        match readString rest with
        | some (s, rest1) => some (.str s, rest1)
        | none => none
      else if c = '-' ∨ isDigit c then
        match readNumber (c :: rest) with
        | some (lit, rest1) => some (.num (String.mk lit), rest1)
        | none => none
      else
        match c :: rest with
        | 't' :: 'r' :: 'u' :: 'e' :: rest1 => some (.bool true, rest1)
        | 'f' :: 'a' :: 'l' :: 's' :: 'e' :: rest1 => some (.bool false, rest1)
        | 'n' :: 'u' :: 'l' :: 'l' :: rest1 => some (.null, rest1)
        | _ => none
/-- The items of an array after `[` or a comma, up to the closing bracket. -/
def parseItems : Nat → List Char → List Json → Option (Json × List Char)
  | 0, _, _ => none
  | fuel + 1, cs, acc =>
    match parseValue fuel cs with
    | none => none
    | some (v, rest) =>
      match skipSpace rest with
      | ',' :: rest1 => parseItems fuel rest1 (v :: acc)
      | ']' :: rest1 => some (.arr (v :: acc).reverse, rest1)
      | _ => none
/-- The members of an object after its opening brace or a comma, up to the
closing brace. -/
def parseMembers : Nat → List Char → List (String × Json) → Option (Json × List Char)
  | 0, _, _ => none
  | fuel + 1, cs, acc =>
    match skipSpace cs with
    | '"' :: rest =>
      match readString rest with
      | none => none
      | some (k, rest1) =>
        match skipSpace rest1 with
        | ':' :: rest2 =>
          match parseValue fuel rest2 with
          | none => none
          | some (v, rest3) =>
            match skipSpace rest3 with
            | ',' :: rest4 => parseMembers fuel rest4 ((k, v) :: acc)
            | '\x7d' :: rest4 => some (.obj ((k, v) :: acc).reverse, rest4)
            | _ => none
        | _ => none
    | _ => none
end

/-- A whole text as one JSON value: what `json.Unmarshal` accepts before it
decodes (`checkValid`); `none` is a `*json.SyntaxError`. -/
def parseJson (b : String) : Option Json :=
  match parseValue (b.length + 1) b.toList with
  | some (v, rest) => if (skipSpace rest).isEmpty then some v else none
  | none => none

/-! ## The data model -/

/-- A value of the interface type `common.Client`: a handle; what its `Get`
does is given separately. -/
abbrev Client := Nat

/-- Modelled from the spec: `common.Entity`, the base of every resource
(package common is not among the sources). It holds the identity of the
resource (its ID and its canonical self-URI) and the client handle used to
fetch it; the handle is an unexported field, which package json never
writes. -/
structure Entity where
  ODataID : String
  ID : String
  client : Option Client
deriving DecidableEq, Repr

/-- Modelled from the spec: `(*common.Entity).SetClient`, which stores the
client handle in the entity. -/
def Entity.SetClient (e : Entity) (c : Client) : Entity := { e with client := some c }

/-- Modelled from the spec: `common.Status`, the nested status object. It is
passed through as found: the members of the object, or `none` while unset. -/
structure Status where
  raw : Option (List (String × Json))
deriving Repr

/-- Modelled from the spec: `ProcessorType`, an enumerated string stored
verbatim (its declaration is not among the sources). -/
abbrev ProcessorType := String

/-- Modelled from the spec: `common.Link`, an unresolved reference to another
resource, holding only its URI. -/
structure Link where
  uri : String
deriving DecidableEq, Repr

/-- Modelled from the spec: `common.Link.String`, the URI of the link (the
empty string for a link that was absent or null). -/
def Link.String (l : Link) : String := l.uri

/-- Modelled from the spec: `common.Links`, an ordered sequence of links. -/
abbrev Links := List Link

/-- Modelled from the spec: `common.Links.ToStrings`, the URIs of the links,
one for each link and in the same order. -/
def Links.ToStrings (l : Links) : List String := l.map Link.String

/-- The struct `SubProcessor`. The type `temp` of `UnmarshalJSON` has the same
fields and no methods, so it is this type too and the conversions between the
two are the identity. -/
structure SubProcessor where
  Entity : Entity
  ODataContext : String
  ODataType : String
  MaxSpeedMHz : GoFloat
  ProcessorType : ProcessorType
  TotalThreads : Int
  Status : Status
  chassis : String
  connectedProcessors : List String
deriving Repr

/-- The anonymous struct type of the field `Links` of `t1`. -/
structure LinksBlock where
  Chassis : Link
  ConnectedProcessors : Links
deriving DecidableEq, Repr

/-- The type `t1` of `UnmarshalJSON`: the embedded `temp` and the links. -/
structure t1 where
  temp : SubProcessor
  Links : LinksBlock
deriving Repr

/-- The type of `t2` in `UnmarshalJSON`: the embedded `t1` and a field
`MaxSpeedMHz` of type string. -/
structure T2 where
  t1 : t1
  MaxSpeedMHz : String
deriving Repr

/-- The zero value of `Entity`. -/
def Entity.zero : Gofish.Entity := ⟨"", "", none⟩

/-- The zero value of `SubProcessor`. -/
def SubProcessor.zero : SubProcessor :=
  ⟨Entity.zero, "", "", GoFloat.zero, "", 0, ⟨none⟩, "", []⟩

/-- The zero value of `t1` (`var t t1`). -/
def t1.zero : t1 := ⟨SubProcessor.zero, ⟨⟨""⟩, []⟩⟩

/-- The zero value of the type of `t2`. -/
def T2.zero : T2 := ⟨t1.zero, ""⟩

/-- The promoted method `subProcessor.SetClient(c)`. -/
def SubProcessor.SetClient (s : SubProcessor) (c : Client) : SubProcessor :=
  { s with Entity := s.Entity.SetClient c }

/-! ## The standard library, as the code uses it -/

/-- The functions of the Go standard library that the code calls.

* `unmarshalT1 b t` is `json.Unmarshal(b, &t)` for `t` of type `t1`: the value
  of `t` after the call and the error returned.
* `unmarshalT2 b t2` is the same for the type of `t2`.
* `parseFloat s bitSize` is `strconv.ParseFloat(s, bitSize)`.
* `readValue r` is the first step of `(*json.Decoder).Decode` on a stream
  with content `r`: the text of the next JSON value, or the error of reading
  it. -/
structure Std where
  unmarshalT1 : String → t1 → t1 × Option GoError
  unmarshalT2 : String → T2 → T2 × Option GoError
  parseFloat : String → Nat → GoFloat × Option GoError
  readValue : String → Except GoError String

/-! ## The source: `SubProcessor.UnmarshalJSON` -/

/-- Lines 83-89 of `subprocessor.go`: the receiver is overwritten by the
decoded `temp`, then the two links are extracted. -/
def assemble (t : t1) : SubProcessor × Option GoError :=
  -- *subProcessor = SubProcessor(t.temp)
  let subProcessor : SubProcessor := t.temp
  -- subProcessor.chassis = t.Links.Chassis.String()
  let subProcessor := { subProcessor with chassis := t.Links.Chassis.String }
  -- subProcessor.connectedProcessors = t.Links.ConnectedProcessors.ToStrings()
  let subProcessor :=
    { subProcessor with connectedProcessors := Links.ToStrings t.Links.ConnectedProcessors }
  (subProcessor, none)

/-- The method `(*SubProcessor).UnmarshalJSON(b)`: the receiver after the
call and the error returned. -/
def UnmarshalJSON (std : Std) (subProcessor : SubProcessor) (b : String) :
    SubProcessor × Option GoError :=
  -- var t t1; err := json.Unmarshal(b, &t)
  match std.unmarshalT1 b t1.zero with
  | (t, none) => assemble t
  | (_, some err) =>
    -- var t2 struct { t1; MaxSpeedMHz string }; err2 := json.Unmarshal(b, &t2)
    match std.unmarshalT2 b T2.zero with
    | (_, some _) =>
      -- return err
      (subProcessor, some err)
    | (t2, none) =>
      -- t = t2.t1
      let t := t2.t1
      if t2.MaxSpeedMHz ≠ "" then
        -- mhz, err := strconv.ParseFloat(t2.MaxSpeedMHz, 32)
        match std.parseFloat t2.MaxSpeedMHz 32 with
        | (mhz, some _) =>
          -- if err != nil: t.MaxSpeedMHz = float32(mhz)
          assemble { t with temp := { t.temp with MaxSpeedMHz := float32 mhz } }
        | (_, none) => assemble t
      else assemble t

/-! ## The source: `GetSubProcessor` -/

/-- An `*http.Response`, of which the code uses the body: the content of the
stream. -/
structure Response where
  Body : String
deriving DecidableEq, Repr

/-- What a run of `GetSubProcessor` does besides computing its results: how
often `c.Get` was called, how often the decoder was invoked and how often the
body of the response was closed. -/
structure Effects where
  gets : Nat
  decodes : Nat
  closes : Nat
deriving DecidableEq, Repr

/-- The call `json.NewDecoder(body).Decode(&subProcessor)`: the decoder reads
the next JSON value of the stream and, `*SubProcessor` being a
`json.Unmarshaler`, hands its text to `UnmarshalJSON`, whose error it
returns. -/
def Decode (std : Std) (body : String) (subProcessor : SubProcessor) :
    SubProcessor × Option GoError :=
  match std.readValue body with
  | .error e => (subProcessor, some e)
  | .ok v => UnmarshalJSON std subProcessor v

/-- The function `GetSubProcessor(c, uri)`, where `get c uri` is what
`c.Get(uri)` returns, a non-nil error or else a response: the two results of
the function (`none` is `nil`) and the effects after the call. -/
def GetSubProcessor (std : Std) (get : Client → String → Except GoError Response)
    (c : Client) (uri : String) (w : Effects) :
    (Option SubProcessor × Option GoError) × Effects :=
  -- resp, err := c.Get(uri)
  let w := { w with gets := w.gets + 1 }
  match get c uri with
  | .error err =>
    -- return nil, err
    ((none, some err), w)
  | .ok resp =>
    -- defer resp.Body.Close(): runs when the function returns, on either path below
    let close (w : Effects) : Effects := { w with closes := w.closes + 1 }
    -- var subProcessor SubProcessor; err = json.NewDecoder(resp.Body).Decode(&subProcessor)
    let w := { w with decodes := w.decodes + 1 }
    match Decode std resp.Body SubProcessor.zero with
    | (_, some err) =>
      -- return nil, err
      ((none, some err), close w)
    | (subProcessor, none) =>
      -- subProcessor.SetClient(c); return &subProcessor, nil
      ((some (subProcessor.SetClient c), none), close w)

/-! ## A model of package json on the types of `UnmarshalJSON`

How `json.Unmarshal` fills a struct: the fields a key can name are found by
the rule of the least depth (`typeFields`), a key names a field when it equals
its name, or else equals it up to letter case, keys that name no field are
skipped, `null` leaves a field as it is, and a value of the wrong kind is
recorded as an `UnmarshalTypeError` while decoding goes on; the first error
recorded is returned at the end. A link is decoded by its own method
(`common.Link` is a `json.Unmarshaler`), which never fails.
-/

/-- The fields of the types that are decoded. -/
inductive FieldId where
  | entityODataID
  | entityID
  | odataContext
  | odataType
  | maxSpeedMHz
  | processorType
  | totalThreads
  | status
  | links
  | maxSpeedMHzText
  | chassis
  | connectedProcessors
  | linkODataID
deriving DecidableEq, Repr

/-- A field as package json lists it: the key that names it, whether the key
comes from a tag, how many embedded structs lie between the decoded type and
the field, and the field. -/
structure JsonField where
  name : String
  tagged : Bool
  depth : Nat
  id : FieldId
deriving DecidableEq, Repr

/-- Modelled from the spec: the exported fields of `common.Entity` with their
keys (the client handle is unexported and is no JSON field). -/
def entityFields (d : Nat) : List JsonField :=
  [⟨"@odata.id", true, d, .entityODataID⟩, ⟨"Id", true, d, .entityID⟩]

/-- The exported fields of `SubProcessor` (lines 16-43), those of the embedded
`Entity` one level deeper; `chassis` and `connectedProcessors` are unexported. -/
def subProcessorFields (d : Nat) : List JsonField :=
  entityFields (d + 1) ++
    [⟨"@odata.context", true, d, .odataContext⟩, ⟨"@odata.type", true, d, .odataType⟩,
     ⟨"MaxSpeedMHz", false, d, .maxSpeedMHz⟩, ⟨"ProcessorType", false, d, .processorType⟩,
     ⟨"TotalThreads", false, d, .totalThreads⟩, ⟨"Status", false, d, .status⟩]

/-- The fields of `t1` (lines 48-54): the embedded `temp` and `Links`. -/
def t1Fields (d : Nat) : List JsonField :=
  subProcessorFields (d + 1) ++ [⟨"Links", false, d, .links⟩]

/-- The fields of the type of `t2` (lines 60-63): the embedded `t1` and the
string `MaxSpeedMHz`. -/
def t2Fields (d : Nat) : List JsonField :=
  t1Fields (d + 1) ++ [⟨"MaxSpeedMHz", false, d, .maxSpeedMHzText⟩]

/-- The fields of the struct of `Links` (lines 50-53). -/
def linksFields : List JsonField :=
  [⟨"Chassis", false, 0, .chassis⟩, ⟨"ConnectedProcessors", false, 0, .connectedProcessors⟩]

/-- Modelled from the spec: the one field of a link object, its URI, under the
Redfish key `@odata.id`. -/
def linkFields : List JsonField := [⟨"@odata.id", true, 0, .linkODataID⟩]

/-- Whether `a` wins over `b`, two fields of one name: it is less deep, or as
deep and the only tagged one. -/
def JsonField.beats (a b : JsonField) : Bool :=
  a.depth < b.depth || (a.depth == b.depth && a.tagged && !b.tagged)

/-- The function `typeFields` of package json: of the candidates of one name,
the one that wins over all others is a field; when none does, the name is
hidden. -/
def typeFields (cands : List JsonField) : List JsonField :=
  cands.filter fun c => cands.all fun d => d.name != c.name || d.id == c.id || c.beats d

/-- The simple case folding of a character, as far as it can matter for a
comparison with an ASCII name: upper-case ASCII letters, the Kelvin sign and
the long s. -/
def foldChar (c : Char) : Nat :=
  if 65 ≤ c.toNat ∧ c.toNat ≤ 90 then c.toNat + 32
  else if c.toNat = 0x212A then 107
  else if c.toNat = 0x17F then 115
  else c.toNat

/-- Equality up to letter case. -/
def equalFold (a b : String) : Bool := a.toList.map foldChar == b.toList.map foldChar

/-- The field a key names: the one whose name it equals, or else the first
whose name it equals up to letter case. -/
def findField (fields : List JsonField) (key : String) : Option JsonField :=
  match fields.find? fun f => f.name == key with
  | some f => some f
  | none => fields.find? fun f => equalFold f.name key

/-- The state of a decoding: the value filled so far and the first type error
recorded (`saveError`). -/
structure Dec (α : Type) where
  val : α
  saved : Option GoError

/-- The error `json.Unmarshal` returns at the end. -/
def Dec.err {α : Type} (d : Dec α) : Option GoError := d.saved

/-- The method `saveError`: only the first error is kept. -/
def Dec.saveError {α : Type} (d : Dec α) (e : Option GoError) : Dec α :=
  match d.saved with
  | some _ => d
  | none => { d with saved := e }

/-- The members of an object, one after the other in the order of the text. -/
def decodeMembers {α : Type} (fields : List JsonField) (store : FieldId → Json → Dec α → Dec α) :
    List (String × Json) → Dec α → Dec α
  | [], d => d
  | (k, v) :: rest, d =>
    match findField fields k with
    | none => decodeMembers fields store rest d
    | some f => decodeMembers fields store rest (store f.id v d)

/-- A value into a field of kind string. -/
def storeString (struct field : String) (j : Json) (old : String) : String × Option GoError :=
  match j with
  | .str s => (s, none)
  | .null => (old, none)
  | j => (old, some (.unmarshalTypeError j.kind struct field))

/-- A value into a field of type `float32`: the literal of a number goes
through `strconv.ParseFloat(lit, 32)`. -/
def storeFloat32 (struct field : String) (j : Json) (old : GoFloat) : GoFloat × Option GoError :=
  match j with
  | .num lit =>
    match parseFloat lit 32 with
    | (f, none) => (f, none)
    | (_, some _) => (old, some (.unmarshalTypeError ("number " ++ lit) struct field))
  | .null => (old, none)
  | j => (old, some (.unmarshalTypeError j.kind struct field))

/-- A value into a field of type `int`: the literal of a number goes through
`strconv.ParseInt(lit, 10, 64)`. -/
def storeInt (struct field : String) (j : Json) (old : Int) : Int × Option GoError :=
  match j with
  | .num lit =>
    match parseInt64 lit.toList with
    | some n => (n, none)
    | none => (old, some (.unmarshalTypeError ("number " ++ lit) struct field))
  | .null => (old, none)
  | j => (old, some (.unmarshalTypeError j.kind struct field))

/-- Modelled from the spec: a value into the field of type `common.Status`,
an object being passed through as found. -/
def storeStatus (struct field : String) (j : Json) (old : Status) : Status × Option GoError :=
  match j with
  | .obj ms => (⟨some ms⟩, none)
  | .null => (old, none)
  | j => (old, some (.unmarshalTypeError j.kind struct field))

/-- The one field of the struct of a link object. -/
def storeLinkField (id : FieldId) (j : Json) (d : Dec String) : Dec String :=
  match id with
  | .linkODataID =>
    let r := storeString "" "@odata.id" j d.val
    { d with val := r.1 }.saveError r.2
  | _ => d

/-- Modelled from the spec: how a link entry of a body is read. A link object
gives the link of its URI (the empty one when it has none) and `null` gives
the empty link; any other value, and an object whose URI is no string, is
malformed and gives no link. -/
def Link.ofJson : Json → Option Link
  | .obj ms =>
    match (decodeMembers linkFields storeLinkField ms ⟨"", none⟩).err with
    | none => some ⟨(decodeMembers linkFields storeLinkField ms ⟨"", none⟩).val⟩
    | some _ => none
  | .null => some ⟨""⟩
  | _ => none

/-- Modelled from the spec: `(*common.Link).UnmarshalJSON`, on the value `j`
of a single link. It never fails (its error, always `nil`, is left out): a
malformed value is omitted, which leaves the link as it was. -/
def Link.UnmarshalJSON (l : Link) (j : Json) : Link :=
  match Link.ofJson j with
  | some l1 => l1
  | none => l

/-- Modelled from the spec: the entries of a list of links into
`common.Links`, the links of the entries in the order of the list, malformed
entries omitted. It never fails. -/
def decodeLinkItems (items : List Json) : Links := items.filterMap Link.ofJson

/-- A value into a field of type `common.Links`, a slice: an array gives the
links of its entries, `null` the empty slice, and any other value is of the
wrong kind: a list that is no list fails the decode, unlike a malformed entry
of a list. -/
def storeLinkList (struct field : String) (j : Json) (old : Links) : Links × Option GoError :=
  match j with
  | .arr items => (decodeLinkItems items, none)
  | .null => ([], none)
  | j => (old, some (.unmarshalTypeError j.kind struct field))

/-- A value into a field of the struct of `Links`. -/
def storeLinksField (id : FieldId) (j : Json) (d : Dec LinksBlock) : Dec LinksBlock :=
  match id with
  | .chassis => { d with val := { d.val with Chassis := Link.UnmarshalJSON d.val.Chassis j } }
  | .connectedProcessors =>
    let r := storeLinkList "" "Links.ConnectedProcessors" j d.val.ConnectedProcessors
    { d with val := { d.val with ConnectedProcessors := r.1 } }.saveError r.2
  | _ => d

/-- A value into the field `Links`. -/
def storeLinks (struct : String) (j : Json) (d : Dec LinksBlock) : Dec LinksBlock :=
  match j with
  | .obj ms => decodeMembers linksFields storeLinksField ms d
  | .null => d
  | j => d.saveError (some (.unmarshalTypeError j.kind struct "Links"))

/-- A value into a field of `t1`, decoded as part of the struct named
`struct`. -/
def storeT1 (struct : String) (id : FieldId) (j : Json) (d : Dec t1) : Dec t1 :=
  let temp := d.val.temp
  let put (r : SubProcessor × Option GoError) : Dec t1 :=
    { d with val := { d.val with temp := r.1 } }.saveError r.2
  match id with
  | .entityODataID =>
    let r := storeString struct "@odata.id" j temp.Entity.ODataID
    put ({ temp with Entity := { temp.Entity with ODataID := r.1 } }, r.2)
  | .entityID =>
    let r := storeString struct "Id" j temp.Entity.ID
    put ({ temp with Entity := { temp.Entity with ID := r.1 } }, r.2)
  | .odataContext =>
    let r := storeString struct "@odata.context" j temp.ODataContext
    put ({ temp with ODataContext := r.1 }, r.2)
  | .odataType =>
    let r := storeString struct "@odata.type" j temp.ODataType
    put ({ temp with ODataType := r.1 }, r.2)
  | .maxSpeedMHz =>
    let r := storeFloat32 struct "MaxSpeedMHz" j temp.MaxSpeedMHz
    put ({ temp with MaxSpeedMHz := r.1 }, r.2)
  | .processorType =>
    let r := storeString struct "ProcessorType" j temp.ProcessorType
    put ({ temp with ProcessorType := r.1 }, r.2)
  | .totalThreads =>
    let r := storeInt struct "TotalThreads" j temp.TotalThreads
    put ({ temp with TotalThreads := r.1 }, r.2)
  | .status =>
    let r := storeStatus struct "Status" j temp.Status
    put ({ temp with Status := r.1 }, r.2)
  | .links =>
    let r := storeLinks struct j ⟨d.val.Links, d.saved⟩
    ⟨{ d.val with Links := r.val }, r.saved⟩
  | _ => d

/-- A value into a field of the type of `t2`, an anonymous struct. -/
def storeT2 (id : FieldId) (j : Json) (d : Dec T2) : Dec T2 :=
  match id with
  | .maxSpeedMHzText =>
    let r := storeString "" "MaxSpeedMHz" j d.val.MaxSpeedMHz
    { d with val := { d.val with MaxSpeedMHz := r.1 } }.saveError r.2
  | id =>
    let r := storeT1 "" id j ⟨d.val.t1, d.saved⟩
    ⟨{ d.val with t1 := r.val }, r.saved⟩

/-- The decoding of a whole value into a struct: an object fills the fields,
`null` changes nothing, and any other value is a type error. -/
def decodeStruct {α : Type} (fields : List JsonField) (store : FieldId → Json → Dec α → Dec α)
    (j : Json) (t : α) : α × Option GoError :=
  match j with
  | .obj ms =>
    let d := decodeMembers fields store ms ⟨t, none⟩
    (d.val, d.err)
  | .null => (t, none)
  | j => (t, some (.unmarshalTypeError j.kind "" ""))

/-- The call `json.Unmarshal(b, &t)` for `t` of type `t1`. A text that is not
one JSON value is a syntax error and leaves `t` as it is. The value returned
beside an error is the part filled before it, which the code never reads. -/
def goUnmarshalT1 (b : String) (t : t1) : t1 × Option GoError :=
  match parseJson b with
  | none => (t, some .syntaxError)
  | some j => decodeStruct (typeFields (t1Fields 0)) (storeT1 "t1") j t

/-- The call `json.Unmarshal(b, &t2)` for the type of `t2`. -/
def goUnmarshalT2 (b : String) (t : T2) : T2 × Option GoError :=
  match parseJson b with
  | none => (t, some .syntaxError)
  | some j => decodeStruct (typeFields (t2Fields 0)) storeT2 j t

/-- The first step of `(*json.Decoder).Decode` on a stream with content `r`:
the text of the first JSON value, with the white space before it dropped; what
follows the value is left in the stream. An empty stream is `io.EOF`. A stream
that does not start with a JSON value is reported as a syntax error (for one
that is cut short the decoder returns `io.ErrUnexpectedEOF`; the two are not
told apart here). -/
def goReadValue (r : String) : Except GoError String :=
  let cs := skipSpace r.toList
  if cs.isEmpty then .error .eof
  else
    match parseValue (cs.length + 1) cs with
    | none => .error .syntaxError
    | some (_, rest) => .ok (String.mk (cs.take (cs.length - rest.length)))

/-- The standard library as modelled in this file. -/
def goStd : Std := ⟨goUnmarshalT1, goUnmarshalT2, parseFloat, goReadValue⟩

/-! ## Bodies with and without a `Links` block -/

/-- A well-formed body: every field has its declared type. -/
def wellFormedBody : String :=
  "\x7b\"@odata.id\":\"/Processors/1/SubProcessors/1\",\"Id\":\"1\",\"MaxSpeedMHz\":3500,\"ProcessorType\":\"CPU\",\"TotalThreads\":8,\"Links\":\x7b\"Chassis\":\x7b\"@odata.id\":\"/Chassis/1\"\x7d,\"ConnectedProcessors\":[\x7b\"@odata.id\":\"/Processors/2\"\x7d,\x7b\"@odata.id\":\"/Processors/3\"\x7d]\x7d\x7d"

/-- The well-formed body with the clock speed as the string `"3500"`. -/
def bodySpeedAsString : String :=
  "\x7b\"@odata.id\":\"/Processors/1/SubProcessors/1\",\"Id\":\"1\",\"MaxSpeedMHz\":\"3500\",\"ProcessorType\":\"CPU\",\"TotalThreads\":8,\"Links\":\x7b\"Chassis\":\x7b\"@odata.id\":\"/Chassis/1\"\x7d,\"ConnectedProcessors\":[\x7b\"@odata.id\":\"/Processors/2\"\x7d,\x7b\"@odata.id\":\"/Processors/3\"\x7d]\x7d\x7d"

/-- A body with the clock speed as the empty string. -/
def bodySpeedEmpty : String := "\x7b\"MaxSpeedMHz\":\"\"\x7d"

/-- A body with the clock speed as the string `"fast"`. -/
def bodySpeedFast : String := "\x7b\"MaxSpeedMHz\":\"fast\"\x7d"

/-- A body with the clock speed as the string `"1e40"`, a number too large
for a `float32`. -/
def bodySpeedTooLarge : String := "\x7b\"MaxSpeedMHz\":\"1e40\"\x7d"

/-- A body whose thread count is a string: neither pass can decode it. -/
def bodyBadThreads : String := "\x7b\"MaxSpeedMHz\":\"3500\",\"TotalThreads\":\"eight\"\x7d"

/-- A client whose `Get` answers one URI with the well-formed body, one with a
body that does not decode, and fails for any other. -/
def stubGet (_ : Client) (uri : String) : Except GoError Response :=
  if uri = "/Processors/1/SubProcessors/1" then .ok ⟨wellFormedBody⟩
  else if uri = "/Processors/1/SubProcessors/2" then .ok ⟨bodyBadThreads⟩
  else .error (.transport 404)

set_option maxRecDepth 100000

/-! ## The cases of `UnmarshalJSON` and `GetSubProcessor` -/

/-- When the strict decode succeeds, the result is assembled from its value. -/
theorem unmarshalJSON_of_strict_ok (std : Std) (s : SubProcessor) (b : String) (t : t1)
    (h : std.unmarshalT1 b t1.zero = (t, none)) : UnmarshalJSON std s b = assemble t := by
  unfold UnmarshalJSON
  rw [h]

/-- When both decodes fail, the receiver is untouched and the strict error is returned. -/
theorem unmarshalJSON_of_both_fail (std : Std) (s : SubProcessor) (b : String) (t : t1)
    (e : GoError) (t2 : T2) (e2 : GoError) (h1 : std.unmarshalT1 b t1.zero = (t, some e))
    (h2 : std.unmarshalT2 b T2.zero = (t2, some e2)) : UnmarshalJSON std s b = (s, some e) := by
  unfold UnmarshalJSON
  rw [h1, h2]

/-- When only the fallback decode succeeds, the result is assembled from its
shared shape, after the substitution of line 78. -/
theorem unmarshalJSON_of_fallback_ok (std : Std) (s : SubProcessor) (b : String) (t : t1)
    (e : GoError) (t2 : T2) (h1 : std.unmarshalT1 b t1.zero = (t, some e))
    (h2 : std.unmarshalT2 b T2.zero = (t2, none)) :
    UnmarshalJSON std s b =
      if t2.MaxSpeedMHz ≠ "" then
        match std.parseFloat t2.MaxSpeedMHz 32 with
        | (mhz, some _) =>
          assemble { t2.t1 with temp := { t2.t1.temp with MaxSpeedMHz := float32 mhz } }
        | (_, none) => assemble t2.t1
      else assemble t2.t1 := by
  unfold UnmarshalJSON
  rw [h1, h2]

/-- The code succeeds exactly when one of the two decodes does. -/
theorem unmarshalJSON_ok_iff (std : Std) (s : SubProcessor) (b : String) :
    (UnmarshalJSON std s b).2 = none ↔
      ((std.unmarshalT1 b t1.zero).2 = none ∨ (std.unmarshalT2 b T2.zero).2 = none) := by
  rcases h1 : std.unmarshalT1 b t1.zero with ⟨t, _ | e⟩
  · rw [unmarshalJSON_of_strict_ok std s b t h1]
    simp [assemble]
  · rcases h2 : std.unmarshalT2 b T2.zero with ⟨t2, _ | e2⟩
    · rw [unmarshalJSON_of_fallback_ok std s b t e t2 h1 h2]
      split
      · rcases h3 : std.parseFloat t2.MaxSpeedMHz 32 with ⟨mhz, _ | e3⟩ <;> simp [assemble]
      · simp [assemble]
    · rw [unmarshalJSON_of_both_fail std s b t e t2 e2 h1 h2]
      simp

/-- What the code leaves in `MaxSpeedMHz` on the fallback path: the converted
first result of `ParseFloat` when the text is not empty and `ParseFloat`
returned an error, and otherwise the numeric field of the shared shape. -/
theorem unmarshalJSON_fallback_MaxSpeedMHz (std : Std) (s : SubProcessor) (b : String) (t : t1)
    (e : GoError) (t2 : T2) (h1 : std.unmarshalT1 b t1.zero = (t, some e))
    (h2 : std.unmarshalT2 b T2.zero = (t2, none)) :
    (UnmarshalJSON std s b).1.MaxSpeedMHz =
      if t2.MaxSpeedMHz ≠ "" ∧ (std.parseFloat t2.MaxSpeedMHz 32).2 ≠ none then
        float32 (std.parseFloat t2.MaxSpeedMHz 32).1
      else t2.t1.temp.MaxSpeedMHz := by
  rw [unmarshalJSON_of_fallback_ok std s b t e t2 h1 h2]
  by_cases hne : t2.MaxSpeedMHz ≠ ""
  · rcases h3 : std.parseFloat t2.MaxSpeedMHz 32 with ⟨mhz, _ | e3⟩
    · simp [hne, assemble]
    · simp [hne, assemble]
  · simp [hne, assemble]

/-- When `c.Get` fails, its error is returned and nothing else is done. -/
theorem getSubProcessor_of_get_error (std : Std)
    (get : Client → String → Except GoError Response) (c : Client) (uri : String) (w : Effects)
    (e : GoError) (h : get c uri = .error e) :
    GetSubProcessor std get c uri w = ((none, some e), { w with gets := w.gets + 1 }) := by
  unfold GetSubProcessor
  rw [h]

/-- When the decoding fails, its error is returned and the body is closed. -/
theorem getSubProcessor_of_decode_error (std : Std)
    (get : Client → String → Except GoError Response) (c : Client) (uri : String) (w : Effects)
    (resp : Response) (sp : SubProcessor) (d : GoError) (h : get c uri = .ok resp)
    (hd : Decode std resp.Body SubProcessor.zero = (sp, some d)) :
    GetSubProcessor std get c uri w =
      ((none, some d),
        { gets := w.gets + 1, decodes := w.decodes + 1, closes := w.closes + 1 }) := by
  unfold GetSubProcessor
  rw [h]
  simp only [hd]

/-- When the decoding succeeds, the entity gets the client and the body is closed. -/
theorem getSubProcessor_of_decode_ok (std : Std)
    (get : Client → String → Except GoError Response) (c : Client) (uri : String) (w : Effects)
    (resp : Response) (sp : SubProcessor) (h : get c uri = .ok resp)
    (hd : Decode std resp.Body SubProcessor.zero = (sp, none)) :
    GetSubProcessor std get c uri w =
      ((some (sp.SetClient c), none),
        { gets := w.gets + 1, decodes := w.decodes + 1, closes := w.closes + 1 }) := by
  unfold GetSubProcessor
  rw [h]
  simp only [hd]

/-! ## Lemmas on the model of package json -/

@[simp] theorem Dec.saveError_val {α : Type} (d : Dec α) (e : Option GoError) :
    (d.saveError e).val = d.val := by
  unfold Dec.saveError
  cases d.saved <;> rfl

theorem findField_some {fields : List JsonField} {k : String} {f : JsonField}
    (h : findField fields k = some f) :
    f ∈ fields ∧ (f.name = k ∨ equalFold f.name k = true) := by
  unfold findField at h
  split at h
  · next g hg =>
    cases h
    exact ⟨List.mem_of_find?_eq_some hg, Or.inl (by simpa using List.find?_some hg)⟩
  · exact ⟨List.mem_of_find?_eq_some h, Or.inr (by simpa using List.find?_some h)⟩

theorem decodeMembers_cons {α : Type} (fields : List JsonField)
    (store : FieldId → Json → Dec α → Dec α) (k : String) (v : Json)
    (rest : List (String × Json)) (d : Dec α) :
    decodeMembers fields store ((k, v) :: rest) d =
      (match findField fields k with
        | none => decodeMembers fields store rest d
        | some f => decodeMembers fields store rest (store f.id v d)) := by
  rw [decodeMembers]

/-- A property of the value that every store keeps is kept by the decoding of
the members. -/
theorem decodeMembers_invariant {α : Type} (fields : List JsonField)
    (store : FieldId → Json → Dec α → Dec α) (P : α → Prop)
    (hstore : ∀ f ∈ fields, ∀ v d, P d.val → P (store f.id v d).val) :
    ∀ (ms : List (String × Json)) (d : Dec α), P d.val → P (decodeMembers fields store ms d).val := by
  intro ms
  induction ms with
  | nil => intro d h; exact h
  | cons m rest ih =>
    intro d h
    obtain ⟨k, v⟩ := m
    rw [decodeMembers_cons]
    split
    · exact ih d h
    · next f hf => exact ih _ (hstore f (findField_some hf).1 v d h)

theorem typeFields_t2Fields :
    typeFields (t2Fields 0) =
      [⟨"@odata.id", true, 3, .entityODataID⟩, ⟨"Id", true, 3, .entityID⟩,
       ⟨"@odata.context", true, 2, .odataContext⟩, ⟨"@odata.type", true, 2, .odataType⟩,
       ⟨"ProcessorType", false, 2, .processorType⟩, ⟨"TotalThreads", false, 2, .totalThreads⟩,
       ⟨"Status", false, 2, .status⟩, ⟨"Links", false, 1, .links⟩,
       ⟨"MaxSpeedMHz", false, 0, .maxSpeedMHzText⟩] := by
  decide

/-- The fallback decode never writes the numeric `MaxSpeedMHz`. -/
theorem storeT2_keeps_MaxSpeedMHz (f : JsonField) (hf : f ∈ typeFields (t2Fields 0)) (v : Json)
    (d : Dec T2) (h : d.val.t1.temp.MaxSpeedMHz = GoFloat.zero) :
    (storeT2 f.id v d).val.t1.temp.MaxSpeedMHz = GoFloat.zero := by
  rw [typeFields_t2Fields] at hf
  simp only [List.mem_cons, List.mem_singleton, List.not_mem_nil, or_false] at hf
  rcases hf with rfl | rfl | rfl | rfl | rfl | rfl | rfl | rfl | rfl <;>
    simp [storeT2, storeT1, h]

theorem goUnmarshalT2_MaxSpeedMHz_zero (b : String) :
    (goUnmarshalT2 b T2.zero).1.t1.temp.MaxSpeedMHz = GoFloat.zero := by
  unfold goUnmarshalT2
  cases parseJson b with
  | none => rfl
  | some j =>
    cases j with
    | obj ms =>
      exact decodeMembers_invariant _ _ (fun t => t.t1.temp.MaxSpeedMHz = GoFloat.zero)
        storeT2_keeps_MaxSpeedMHz ms ⟨T2.zero, none⟩ rfl
    | _ => rfl

/-- Claim C1 (the code at the failing input): the well-formed body with
`MaxSpeedMHz` as the string `"3500"` fails the strict decode, passes the
fallback decode with the text `"3500"`, and `ParseFloat` parses that text to
3500 without error; yet `UnmarshalJSON` returns no error and leaves
`MaxSpeedMHz` at 0, which is not `float32(3500)`. -/
theorem unmarshalJSON_speed_3500_as_string_left_zero :
    (goStd.unmarshalT1 bodySpeedAsString t1.zero).2 =
        some (.unmarshalTypeError "string" "t1" "MaxSpeedMHz") ∧
      (goStd.unmarshalT2 bodySpeedAsString T2.zero).2 = none ∧
      (goStd.unmarshalT2 bodySpeedAsString T2.zero).1.MaxSpeedMHz = "3500" ∧
      goStd.parseFloat "3500" 32 = (GoFloat.ofNat 3500, none) ∧
      (UnmarshalJSON goStd SubProcessor.zero bodySpeedAsString).2 = none ∧
      (UnmarshalJSON goStd SubProcessor.zero bodySpeedAsString).1.MaxSpeedMHz = GoFloat.zero ∧
      float32 (GoFloat.ofNat 3500) = GoFloat.fin false 875 2 ∧
      GoFloat.zero ≠ float32 (GoFloat.ofNat 3500) := by
  decide

/-- Claim C2 (the code at the failing input): the body whose `MaxSpeedMHz` is
the string `"1e40"` fails the strict decode and passes the fallback decode,
and `ParseFloat` returns a range error together with `+Inf`; `UnmarshalJSON`
returns no error and sets `MaxSpeedMHz` to `+Inf`, not to 0. For the string
`"fast"` (a syntax error, returned together with 0) and for the empty string
the field is 0. -/
theorem unmarshalJSON_speed_out_of_range_gives_inf :
    (goStd.unmarshalT1 bodySpeedTooLarge t1.zero).2 =
        some (.unmarshalTypeError "string" "t1" "MaxSpeedMHz") ∧
      (goStd.unmarshalT2 bodySpeedTooLarge T2.zero).2 = none ∧
      (goStd.unmarshalT2 bodySpeedTooLarge T2.zero).1.MaxSpeedMHz = "1e40" ∧
      goStd.parseFloat "1e40" 32 =
        (GoFloat.inf false, some (.numError "ParseFloat" "1e40" .errRange)) ∧
      (UnmarshalJSON goStd SubProcessor.zero bodySpeedTooLarge).2 = none ∧
      (UnmarshalJSON goStd SubProcessor.zero bodySpeedTooLarge).1.MaxSpeedMHz = GoFloat.inf false ∧
      GoFloat.inf false ≠ GoFloat.zero ∧
      goStd.parseFloat "fast" 32 =
        (GoFloat.zero, some (.numError "ParseFloat" "fast" .errSyntax)) ∧
      (UnmarshalJSON goStd SubProcessor.zero bodySpeedFast).2 = none ∧
      (UnmarshalJSON goStd SubProcessor.zero bodySpeedFast).1.MaxSpeedMHz = GoFloat.zero ∧
      (goStd.unmarshalT2 bodySpeedEmpty T2.zero).1.MaxSpeedMHz = "" ∧
      (UnmarshalJSON goStd SubProcessor.zero bodySpeedEmpty).2 = none ∧
      (UnmarshalJSON goStd SubProcessor.zero bodySpeedEmpty).1.MaxSpeedMHz = GoFloat.zero := by
  decide

/-- Claim C3: `UnmarshalJSON` returns an error exactly when the strict decode
and the fallback decode both return one, and the error it returns is then the
one of the strict decode: the returned error is that of the strict decode when
the fallback decode failed, and `nil` otherwise, whatever `ParseFloat`
returns. -/
theorem unmarshalJSON_fails_iff_both_passes_fail (std : Std) (subProcessor : SubProcessor)
    (b : String) :
    ((UnmarshalJSON std subProcessor b).2 ≠ none ↔
        (std.unmarshalT1 b t1.zero).2 ≠ none ∧ (std.unmarshalT2 b T2.zero).2 ≠ none) ∧
      (UnmarshalJSON std subProcessor b).2 =
        (match (std.unmarshalT2 b T2.zero).2 with
          | some _ => (std.unmarshalT1 b t1.zero).2
          | none => none) := by
  rcases h1 : std.unmarshalT1 b t1.zero with ⟨t, _ | e⟩
  · rw [unmarshalJSON_of_strict_ok std subProcessor b t h1]
    rcases h2 : std.unmarshalT2 b T2.zero with ⟨t2, _ | e2⟩ <;> simp [assemble]
  · rcases h2 : std.unmarshalT2 b T2.zero with ⟨t2, _ | e2⟩
    · have hok := (unmarshalJSON_ok_iff std subProcessor b).2 (Or.inr (by rw [h2]))
      rw [hok]
      simp
    · rw [unmarshalJSON_of_both_fail std subProcessor b t e t2 e2 h1 h2]
      simp

/-- Witness of C3: the body whose thread count is a string fails both decodes;
the error returned is the one of the strict decode (on `MaxSpeedMHz`, in the
struct `t1`), not the one of the fallback decode (on `TotalThreads`). -/
theorem unmarshalJSON_fails_iff_both_passes_fail_witness :
    (UnmarshalJSON goStd SubProcessor.zero bodyBadThreads).2 =
        some (.unmarshalTypeError "string" "t1" "MaxSpeedMHz") ∧
      (goStd.unmarshalT1 bodyBadThreads t1.zero).2 =
        some (.unmarshalTypeError "string" "t1" "MaxSpeedMHz") ∧
      (goStd.unmarshalT2 bodyBadThreads T2.zero).2 =
        some (.unmarshalTypeError "string" "" "TotalThreads") :=
  ⟨(unmarshalJSON_fails_iff_both_passes_fail goStd SubProcessor.zero bodyBadThreads).2.trans
    (by decide), by decide, by decide⟩

/-- Claim C4: when the strict decode succeeds with the value `t`,
`UnmarshalJSON` returns no error, every scalar field of the entity and its
embedded `Entity` are those of `t.temp`, and the result is the same for any
other fallback decode and any other `ParseFloat`: neither is consulted. -/
theorem unmarshalJSON_strict_success_short_circuits (std : Std) (subProcessor : SubProcessor)
    (b : String) (t : t1) (h : std.unmarshalT1 b t1.zero = (t, none)) :
    (UnmarshalJSON std subProcessor b).2 = none ∧
      (UnmarshalJSON std subProcessor b).1.Entity = t.temp.Entity ∧
      (UnmarshalJSON std subProcessor b).1.ODataContext = t.temp.ODataContext ∧
      (UnmarshalJSON std subProcessor b).1.ODataType = t.temp.ODataType ∧
      (UnmarshalJSON std subProcessor b).1.MaxSpeedMHz = t.temp.MaxSpeedMHz ∧
      (UnmarshalJSON std subProcessor b).1.ProcessorType = t.temp.ProcessorType ∧
      (UnmarshalJSON std subProcessor b).1.TotalThreads = t.temp.TotalThreads ∧
      (UnmarshalJSON std subProcessor b).1.Status = t.temp.Status ∧
      ∀ (fallback : String → T2 → T2 × Option GoError)
        (parse : String → Nat → GoFloat × Option GoError),
        UnmarshalJSON { std with unmarshalT2 := fallback, parseFloat := parse } subProcessor b =
          UnmarshalJSON std subProcessor b := by
  rw [unmarshalJSON_of_strict_ok std subProcessor b t h]
  refine ⟨rfl, rfl, rfl, rfl, rfl, rfl, rfl, rfl, ?_⟩
  intro fallback parse
  exact unmarshalJSON_of_strict_ok _ subProcessor b t h

/-- Witness of C4, on the well-formed body, with a fallback decode that always
fails and a `ParseFloat` that always returns NaN. -/
theorem unmarshalJSON_strict_success_short_circuits_witness :
    (goStd.unmarshalT1 wellFormedBody t1.zero).2 = none ∧
      (UnmarshalJSON goStd SubProcessor.zero wellFormedBody).2 = none ∧
      (UnmarshalJSON goStd SubProcessor.zero wellFormedBody).1.Entity =
        ⟨"/Processors/1/SubProcessors/1", "1", none⟩ ∧
      (UnmarshalJSON goStd SubProcessor.zero wellFormedBody).1.MaxSpeedMHz = GoFloat.ofNat 3500 ∧
      (UnmarshalJSON goStd SubProcessor.zero wellFormedBody).1.ProcessorType = "CPU" ∧
      (UnmarshalJSON goStd SubProcessor.zero wellFormedBody).1.TotalThreads = 8 ∧
      UnmarshalJSON { goStd with unmarshalT2 := fun _ t => (t, some .eof),
                                 parseFloat := fun _ _ => (GoFloat.nan, none) }
          SubProcessor.zero wellFormedBody =
        UnmarshalJSON goStd SubProcessor.zero wellFormedBody := by
  have h := unmarshalJSON_strict_success_short_circuits goStd SubProcessor.zero wellFormedBody
    (goStd.unmarshalT1 wellFormedBody t1.zero).1 (Prod.ext rfl (by decide))
  obtain ⟨h0, h1, _, _, h4, h5, h6, _, h8⟩ := h
  exact ⟨by decide, h0, h1.trans (by decide), h4.trans (by decide), h5.trans (by decide),
    h6.trans (by decide), h8 _ _⟩

/-- Claim C6: when `c.Get` returns an error, `GetSubProcessor` returns no
entity and that error, calls the decoder not at all and closes nothing; when
`c.Get` succeeds and the decoding returns an error, it returns no entity and
that error; in every case exactly one of the entity and the error is `nil`,
and `c.Get` is called once. -/
theorem getSubProcessor_propagates_errors (std : Std)
    (get : Client → String → Except GoError Response) (c : Client) (uri : String) (w : Effects) :
    (∀ e, get c uri = .error e →
        (GetSubProcessor std get c uri w).1 = (none, some e) ∧
          (GetSubProcessor std get c uri w).2.decodes = w.decodes) ∧
      (∀ resp d, get c uri = .ok resp → (Decode std resp.Body SubProcessor.zero).2 = some d →
        (GetSubProcessor std get c uri w).1 = (none, some d)) ∧
      ((GetSubProcessor std get c uri w).1.1 = none ↔
        (GetSubProcessor std get c uri w).1.2 ≠ none) ∧
      (GetSubProcessor std get c uri w).2.gets = w.gets + 1 := by
  rcases hg : get c uri with e | resp
  · rw [getSubProcessor_of_get_error std get c uri w e hg]
    simp
  · rcases hd : Decode std resp.Body SubProcessor.zero with ⟨sp, _ | d⟩
    · rw [getSubProcessor_of_decode_ok std get c uri w resp sp hg hd]
      refine ⟨by simp, ?_, by simp, rfl⟩
      intro resp1 d1 h1 h2
      cases h1
      rw [hd] at h2
      cases h2
    · rw [getSubProcessor_of_decode_error std get c uri w resp sp d hg hd]
      refine ⟨by simp, ?_, by simp, rfl⟩
      intro resp1 d1 h1 h2
      cases h1
      rw [hd] at h2
      cases h2
      rfl

/-- Witness of C6: the stub fails for an unknown URI, and answers another with
a body that does not decode. -/
theorem getSubProcessor_propagates_errors_witness :
    (GetSubProcessor goStd stubGet 7 "/nowhere" ⟨0, 0, 0⟩).1 = (none, some (.transport 404)) ∧
      (GetSubProcessor goStd stubGet 7 "/nowhere" ⟨0, 0, 0⟩).2 = ⟨1, 0, 0⟩ ∧
      (GetSubProcessor goStd stubGet 7 "/Processors/1/SubProcessors/2" ⟨0, 0, 0⟩).1 =
        (none, some (.unmarshalTypeError "string" "t1" "MaxSpeedMHz")) ∧
      (GetSubProcessor goStd stubGet 7 "/Processors/1/SubProcessors/2" ⟨0, 0, 0⟩).2.gets = 1 :=
  ⟨((getSubProcessor_propagates_errors goStd stubGet 7 "/nowhere" ⟨0, 0, 0⟩).1
      (.transport 404) (by rfl)).1,
    by decide,
    (getSubProcessor_propagates_errors goStd stubGet 7 "/Processors/1/SubProcessors/2"
      ⟨0, 0, 0⟩).2.1 ⟨bodyBadThreads⟩ (.unmarshalTypeError "string" "t1" "MaxSpeedMHz")
      (by rfl) (by decide),
    (getSubProcessor_propagates_errors goStd stubGet 7 "/Processors/1/SubProcessors/2"
      ⟨0, 0, 0⟩).2.2.2⟩

/-- Claim C7: when `c.Get` succeeds and the value read from the body decodes
without error, `GetSubProcessor` returns a `nil` error and an entity whose
client handle is `c` and whose every other field is the one
`UnmarshalJSON` produced: the binding follows the decoding. -/
theorem getSubProcessor_binds_client (std : Std)
    (get : Client → String → Except GoError Response) (c : Client) (uri : String) (w : Effects)
    (resp : Response) (v : String) (hget : get c uri = .ok resp)
    (hread : std.readValue resp.Body = .ok v)
    (hdec : (UnmarshalJSON std SubProcessor.zero v).2 = none) :
    ∃ entity, (GetSubProcessor std get c uri w).1 = (some entity, none) ∧
      entity.Entity.client = some c ∧
      entity = (UnmarshalJSON std SubProcessor.zero v).1.SetClient c ∧
      entity.Entity.ODataID = (UnmarshalJSON std SubProcessor.zero v).1.Entity.ODataID ∧
      entity.Entity.ID = (UnmarshalJSON std SubProcessor.zero v).1.Entity.ID ∧
      entity.ODataContext = (UnmarshalJSON std SubProcessor.zero v).1.ODataContext ∧
      entity.ODataType = (UnmarshalJSON std SubProcessor.zero v).1.ODataType ∧
      entity.MaxSpeedMHz = (UnmarshalJSON std SubProcessor.zero v).1.MaxSpeedMHz ∧
      entity.ProcessorType = (UnmarshalJSON std SubProcessor.zero v).1.ProcessorType ∧
      entity.TotalThreads = (UnmarshalJSON std SubProcessor.zero v).1.TotalThreads ∧
      entity.Status = (UnmarshalJSON std SubProcessor.zero v).1.Status ∧
      entity.chassis = (UnmarshalJSON std SubProcessor.zero v).1.chassis ∧
      entity.connectedProcessors = (UnmarshalJSON std SubProcessor.zero v).1.connectedProcessors := by
  refine ⟨(UnmarshalJSON std SubProcessor.zero v).1.SetClient c, ?_, rfl, rfl, rfl, rfl, rfl, rfl,
    rfl, rfl, rfl, rfl, rfl, rfl⟩
  have hd : Decode std resp.Body SubProcessor.zero = UnmarshalJSON std SubProcessor.zero v := by
    unfold Decode
    rw [hread]
  rw [getSubProcessor_of_decode_ok std get c uri w resp _ hget (hd.trans (Prod.ext rfl hdec))]

/-- Witness of C7: the stub answers the URI with the well-formed body, and the
entity returned holds the client handle 7 and the decoded fields. -/
theorem getSubProcessor_binds_client_witness :
    ∃ entity, (GetSubProcessor goStd stubGet 7 "/Processors/1/SubProcessors/1" ⟨0, 0, 0⟩).1 =
        (some entity, none) ∧
      entity.Entity.client = some 7 ∧
      entity.Entity.ODataID = "/Processors/1/SubProcessors/1" ∧
      entity.MaxSpeedMHz = GoFloat.ofNat 3500 ∧
      entity.TotalThreads = 8 ∧
      entity.chassis = "/Chassis/1" ∧
      entity.connectedProcessors = ["/Processors/2", "/Processors/3"] := by
  obtain ⟨entity, h0, h1, _, h3, _, _, _, h7, _, h9, _, h11, h12⟩ :=
    getSubProcessor_binds_client goStd stubGet 7 "/Processors/1/SubProcessors/1" ⟨0, 0, 0⟩
      ⟨wellFormedBody⟩ wellFormedBody (by rfl) (by rfl) (by decide)
  exact ⟨entity, h0, h1, h3.trans (by decide), h7.trans (by decide), h9.trans (by decide),
    h11.trans (by decide), h12.trans (by decide)⟩

/-- Claim C8: when `c.Get` succeeds, the body has been closed exactly once
more when `GetSubProcessor` returns, whether the decoding succeeds or fails;
when `c.Get` fails, no body is closed. -/
theorem getSubProcessor_closes_body_once (std : Std)
    (get : Client → String → Except GoError Response) (c : Client) (uri : String) (w : Effects) :
    (∀ resp, get c uri = .ok resp → (GetSubProcessor std get c uri w).2.closes = w.closes + 1) ∧
      (∀ e, get c uri = .error e → (GetSubProcessor std get c uri w).2.closes = w.closes) := by
  rcases hg : get c uri with e | resp
  · rw [getSubProcessor_of_get_error std get c uri w e hg]
    simp
  · rcases hd : Decode std resp.Body SubProcessor.zero with ⟨sp, _ | d⟩
    · rw [getSubProcessor_of_decode_ok std get c uri w resp sp hg hd]
      simp
    · rw [getSubProcessor_of_decode_error std get c uri w resp sp d hg hd]
      simp

/-- Witness of C8: one close for a body that decodes and for one that does
not, none when `Get` fails. -/
theorem getSubProcessor_closes_body_once_witness :
    (GetSubProcessor goStd stubGet 7 "/Processors/1/SubProcessors/1" ⟨0, 0, 0⟩).2.closes = 1 ∧
      (GetSubProcessor goStd stubGet 7 "/Processors/1/SubProcessors/2" ⟨0, 0, 0⟩).2.closes = 1 ∧
      (GetSubProcessor goStd stubGet 7 "/nowhere" ⟨0, 0, 0⟩).2.closes = 0 :=
  ⟨(getSubProcessor_closes_body_once goStd stubGet 7 "/Processors/1/SubProcessors/1"
      ⟨0, 0, 0⟩).1 ⟨wellFormedBody⟩ (by rfl),
    (getSubProcessor_closes_body_once goStd stubGet 7 "/Processors/1/SubProcessors/2"
      ⟨0, 0, 0⟩).1 ⟨bodyBadThreads⟩ (by rfl),
    (getSubProcessor_closes_body_once goStd stubGet 7 "/nowhere" ⟨0, 0, 0⟩).2
      (.transport 404) (by rfl)⟩

/-- Claim C9: when the strict decode fails and the fallback decode succeeds
with the value `t2`, `UnmarshalJSON` returns no error and every field of the
entity other than `MaxSpeedMHz` is the one the fallback decode produced in the
shared shape `t2.t1`, the two link fields being extracted from its `Links`;
and when the fallback decode is that of package json, the numeric
`MaxSpeedMHz` of the shared shape is 0, the string field of the same name
hiding it. -/
theorem unmarshalJSON_fallback_preserves_other_fields (std : Std) (subProcessor : SubProcessor)
    (b : String) (t : t1) (e : GoError) (t2 : T2)
    (hstrict : std.unmarshalT1 b t1.zero = (t, some e))
    (hfallback : std.unmarshalT2 b T2.zero = (t2, none)) :
    (UnmarshalJSON std subProcessor b).2 = none ∧
      (UnmarshalJSON std subProcessor b).1.Entity = t2.t1.temp.Entity ∧
      (UnmarshalJSON std subProcessor b).1.ODataContext = t2.t1.temp.ODataContext ∧
      (UnmarshalJSON std subProcessor b).1.ODataType = t2.t1.temp.ODataType ∧
      (UnmarshalJSON std subProcessor b).1.ProcessorType = t2.t1.temp.ProcessorType ∧
      (UnmarshalJSON std subProcessor b).1.TotalThreads = t2.t1.temp.TotalThreads ∧
      (UnmarshalJSON std subProcessor b).1.Status = t2.t1.temp.Status ∧
      (UnmarshalJSON std subProcessor b).1.chassis = t2.t1.Links.Chassis.String ∧
      (UnmarshalJSON std subProcessor b).1.connectedProcessors =
        Links.ToStrings t2.t1.Links.ConnectedProcessors ∧
      (std.unmarshalT2 = goUnmarshalT2 → t2.t1.temp.MaxSpeedMHz = GoFloat.zero) := by
  have hzero : std.unmarshalT2 = goUnmarshalT2 → t2.t1.temp.MaxSpeedMHz = GoFloat.zero := by
    intro hgo
    have h := goUnmarshalT2_MaxSpeedMHz_zero b
    rw [← hgo, hfallback] at h
    exact h
  rw [unmarshalJSON_of_fallback_ok std subProcessor b t e t2 hstrict hfallback]
  split
  · rcases h3 : std.parseFloat t2.MaxSpeedMHz 32 with ⟨mhz, _ | e3⟩
    · exact ⟨rfl, rfl, rfl, rfl, rfl, rfl, rfl, rfl, rfl, hzero⟩
    · exact ⟨rfl, rfl, rfl, rfl, rfl, rfl, rfl, rfl, rfl, hzero⟩
  · exact ⟨rfl, rfl, rfl, rfl, rfl, rfl, rfl, rfl, rfl, hzero⟩

/-- Witness of C9, on the well-formed body with the clock speed as the string
`"3500"`. -/
theorem unmarshalJSON_fallback_preserves_other_fields_witness :
    (goStd.unmarshalT1 bodySpeedAsString t1.zero).2 =
        some (.unmarshalTypeError "string" "t1" "MaxSpeedMHz") ∧
      (goStd.unmarshalT2 bodySpeedAsString T2.zero).2 = none ∧
      (UnmarshalJSON goStd SubProcessor.zero bodySpeedAsString).2 = none ∧
      (UnmarshalJSON goStd SubProcessor.zero bodySpeedAsString).1.Entity =
        ⟨"/Processors/1/SubProcessors/1", "1", none⟩ ∧
      (UnmarshalJSON goStd SubProcessor.zero bodySpeedAsString).1.ProcessorType = "CPU" ∧
      (UnmarshalJSON goStd SubProcessor.zero bodySpeedAsString).1.TotalThreads = 8 ∧
      (UnmarshalJSON goStd SubProcessor.zero bodySpeedAsString).1.chassis = "/Chassis/1" ∧
      (UnmarshalJSON goStd SubProcessor.zero bodySpeedAsString).1.connectedProcessors =
        ["/Processors/2", "/Processors/3"] ∧
      (goStd.unmarshalT2 bodySpeedAsString T2.zero).1.t1.temp.MaxSpeedMHz = GoFloat.zero := by
  have h := unmarshalJSON_fallback_preserves_other_fields goStd SubProcessor.zero
    bodySpeedAsString (goStd.unmarshalT1 bodySpeedAsString t1.zero).1
    (.unmarshalTypeError "string" "t1" "MaxSpeedMHz")
    (goStd.unmarshalT2 bodySpeedAsString T2.zero).1
    (Prod.ext rfl (by decide)) (Prod.ext rfl (by decide))
  obtain ⟨h0, h1, _, _, h4, h5, _, h7, h8, h9⟩ := h
  exact ⟨by decide, by decide, h0, h1.trans (by decide), h4.trans (by decide),
    h5.trans (by decide), h7.trans (by decide), h8.trans (by decide), h9 rfl⟩

/-- Claim C10: when `UnmarshalJSON` returns an error the receiver is as it
was; when it returns `nil` the new receiver and the result are the same for
any two receivers; and the error returned does not depend on the receiver. -/
theorem unmarshalJSON_atomic_and_history_free (std : Std) (s s' : SubProcessor) (b : String) :
    ((UnmarshalJSON std s b).2 ≠ none → (UnmarshalJSON std s b).1 = s) ∧
      ((UnmarshalJSON std s b).2 = none → UnmarshalJSON std s' b = UnmarshalJSON std s b) ∧
      (UnmarshalJSON std s' b).2 = (UnmarshalJSON std s b).2 := by
  rcases h1 : std.unmarshalT1 b t1.zero with ⟨t, _ | e⟩
  · rw [unmarshalJSON_of_strict_ok std s b t h1, unmarshalJSON_of_strict_ok std s' b t h1]
    simp [assemble]
  · rcases h2 : std.unmarshalT2 b T2.zero with ⟨t2, _ | e2⟩
    · rw [unmarshalJSON_of_fallback_ok std s b t e t2 h1 h2,
        unmarshalJSON_of_fallback_ok std s' b t e t2 h1 h2]
      refine ⟨?_, fun _ => rfl, rfl⟩
      split
      · rcases h3 : std.parseFloat t2.MaxSpeedMHz 32 with ⟨mhz, _ | e3⟩ <;> simp [assemble]
      · simp [assemble]
    · rw [unmarshalJSON_of_both_fail std s b t e t2 e2 h1 h2,
        unmarshalJSON_of_both_fail std s' b t e t2 e2 h1 h2]
      simp

/-- Witness of C10: a receiver that already holds a client handle and a speed
keeps them when the body fails both decodes, and loses them to the decoded
value when the body decodes. -/
theorem unmarshalJSON_atomic_and_history_free_witness :
    (UnmarshalJSON goStd (SubProcessor.zero.SetClient 7) bodyBadThreads).1.Entity.client =
        some 7 ∧
      (UnmarshalJSON goStd (SubProcessor.zero.SetClient 7) wellFormedBody).1.Entity.client =
        none ∧
      UnmarshalJSON goStd (SubProcessor.zero.SetClient 7) wellFormedBody =
        UnmarshalJSON goStd SubProcessor.zero wellFormedBody :=
  ⟨congrArg (fun s => s.Entity.client)
      ((unmarshalJSON_atomic_and_history_free goStd (SubProcessor.zero.SetClient 7)
        SubProcessor.zero bodyBadThreads).1 (by decide)),
    by decide,
    ((unmarshalJSON_atomic_and_history_free goStd SubProcessor.zero
      (SubProcessor.zero.SetClient 7) wellFormedBody).2.1 (by decide))⟩

end Gofish
